import Mathlib

/-!
Verification development for the wind-downscaling GAN repository.

The definitions below are a shallow embedding of:
* `src/downscaling/gan/ganbase.py` — `GAN.train_step` and `GAN.test_step`
  (critic/generator alternation, gradient penalty, metric bookkeeping);
* `analyse_run_results.py` — `get_predicted_map_Switzerland` (crop/overlap
  tiling of a raster into square patches, per-call normalization, border
  strategy dispatch) and `compute_metrics_val_set` (checkpoint enumeration).

Machine floats are modelled by exact `ℝ`/`ℚ` arithmetic; Python integer
slicing is modelled over `ℤ`/`ℕ` with CPython slice-normalization semantics.
-/

set_option autoImplicit false
set_option maxRecDepth 100000

namespace WindDownscaling

/-! ### Python slice semantics

`xs[start:stop]` and `xs[start:stop:-1]` on a sequence of length `len`,
following CPython `slice.indices` normalization: negative endpoints are
shifted by `len`, then clamped to `[0, len]` (step `1`) or `[-1, len-1]`
(step `-1`).  The result is the list of selected positions. -/

/-- Normalization of a slice endpoint for step `1` on length `len`. -/
def pyNormFwd (len : ℕ) (v : ℤ) : ℤ :=
  if v < 0 then max (v + len) 0 else min v (len : ℤ)

/-- Normalization of a slice endpoint for step `-1` on length `len`. -/
def pyNormRev (len : ℕ) (v : ℤ) : ℤ :=
  if v < 0 then max (v + len) (-1) else min v ((len : ℤ) - 1)

/-- Positions selected by `xs[start:stop]` (step `1`) on a sequence of
length `len`. -/
def pySliceFwd (len : ℕ) (start stop : ℤ) : List ℤ :=
  (List.range (pyNormFwd len stop - pyNormFwd len start).toNat).map
    (fun k : ℕ => pyNormFwd len start + (k : ℤ))

/-- Positions selected by `xs[start:stop:-1]` (step `-1`) on a sequence of
length `len`. -/
def pySliceRev (len : ℕ) (start stop : ℤ) : List ℤ :=
  (List.range (pyNormRev len start - pyNormRev len stop).toNat).map
    (fun k : ℕ => pyNormRev len start - (k : ℤ))

lemma mem_pySliceFwd {len : ℕ} {start stop p : ℤ} :
    p ∈ pySliceFwd len start stop ↔
      pyNormFwd len start ≤ p ∧ p < pyNormFwd len stop := by
  simp only [pySliceFwd, List.mem_map, List.mem_range]
  constructor
  · rintro ⟨k, hk, rfl⟩; omega
  · intro h; exact ⟨(p - pyNormFwd len start).toNat, by omega, by omega⟩

lemma mem_pySliceRev {len : ℕ} {start stop p : ℤ} :
    p ∈ pySliceRev len start stop ↔
      pyNormRev len stop < p ∧ p ≤ pyNormRev len start := by
  simp only [pySliceRev, List.mem_map, List.mem_range]
  constructor
  · rintro ⟨k, hk, rfl⟩; omega
  · intro h; exact ⟨(pyNormRev len start - p).toNat, by omega, by omega⟩

lemma length_pySliceFwd (len : ℕ) (start stop : ℤ) :
    (pySliceFwd len start stop).length =
      (pyNormFwd len stop - pyNormFwd len start).toNat := by
  rw [pySliceFwd, List.length_map, List.length_range]

lemma length_pySliceRev (len : ℕ) (start stop : ℤ) :
    (pySliceRev len start stop).length =
      (pyNormRev len start - pyNormRev len stop).toNat := by
  rw [pySliceRev, List.length_map, List.length_range]

/-! ### Crop border strategy

From `get_predicted_map_Switzerland`, branch `handle_borders == 'crop'`:
`nrows, ncols = floor(pixels_lon / img_size), floor(pixels_lat / img_size)`;
tile `(i, j)` selects `x_1 = slice(j*img_size, (j+1)*img_size)` and
`y_1 = slice((ncols-i-1)*img_size, (ncols-i-2)*img_size, -1)`. -/

/-- `nrows = np.math.floor(pixels_lon / img_size)`. -/
def cropNrows (pixels_lon img_size : ℕ) : ℕ := pixels_lon / img_size

/-- `ncols = np.math.floor(pixels_lat / img_size)`. -/
def cropNcols (pixels_lat img_size : ℕ) : ℕ := pixels_lat / img_size

/-- x-axis positions of crop tile column `j`:
`x_1=slice(j * img_size, (j + 1) * img_size)`. -/
def cropXIdx (pixels img_size j : ℕ) : List ℤ :=
  pySliceFwd pixels ((j : ℤ) * img_size) (((j : ℤ) + 1) * img_size)

/-- y-axis positions of crop tile row `i`:
`y_1=slice((ncols - i - 1) * img_size, (ncols - i - 2) * img_size, -1)`.
The code uses `ncols` (not `nrows`) in this slice. -/
def cropYIdx (pixels img_size ncols i : ℕ) : List ℤ :=
  pySliceRev pixels (((ncols : ℤ) - i - 1) * img_size) (((ncols : ℤ) - i - 2) * img_size)

/-! ### Overlap border strategy

From `get_predicted_map_Switzerland`, branch `handle_borders == 'overlap'`:
grid counts use `np.math.ceil`, tile start offsets come from an integer
stride plus a cumulative-sum leftover schedule, and the slices have the
pixel width `128` written literally (`x_1=slice(sx, sx + 128)` and
`y_1=slice(sy + 127, sy - 1, -1) if sy != 0 else slice(128, 0, -1)`). -/

/-- `np.math.ceil(pixels / img_size)`: the number of grid positions on one
axis (for positive `img_size`). -/
def overlapN (pixels img_size : ℕ) : ℕ := (pixels + img_size - 1) / img_size

/-- `xdist = (pixels - img_size) // (n - 1)`. -/
def overlapDist (pixels img_size n : ℕ) : ℕ := (pixels - img_size) / (n - 1)

/-- `leftovers = pixels - ((n - 1) * dist + img_size)`. -/
def overlapLeftovers (pixels img_size n : ℕ) : ℕ :=
  pixels - ((n - 1) * overlapDist pixels img_size n + img_size)

/-- `np.cumsum` on a list of naturals. -/
def cumsumAux : ℕ → List ℕ → List ℕ
  | _, [] => []
  | acc, x :: xs => (acc + x) :: cumsumAux (acc + x) xs

/-- `np.concatenate([[0], np.ones(leftovers), np.zeros(n - leftovers - 1)]).cumsum()`. -/
def leftoverVec (n leftovers : ℕ) : List ℕ :=
  cumsumAux 0 ([0] ++ List.replicate leftovers 1 ++ List.replicate (n - leftovers - 1) 0)

/-- `[int(i * dist + x) for (i, x) in zip(range(n), vec_leftovers)]`:
the start offsets of the overlap tiles on one axis. -/
def overlapStarts (pixels img_size : ℕ) : List ℕ :=
  List.zipWith
    (fun i x => i * overlapDist pixels img_size (overlapN pixels img_size) + x)
    (List.range (overlapN pixels img_size))
    (leftoverVec (overlapN pixels img_size)
      (overlapLeftovers pixels img_size (overlapN pixels img_size)))

/-- x-axis positions of the overlap tile starting at `sx`:
`x_1=slice(sx, sx + 128)` — the width `128` is a literal in the source,
independent of `img_size`. -/
def overlapXIdx (pixels sx : ℕ) : List ℤ :=
  pySliceFwd pixels (sx : ℤ) ((sx : ℤ) + 128)

/-- y-axis positions of the overlap tile starting at `sy`:
`y_1=slice(sy + 127, sy - 1, -1) if sy != 0 else slice(128, 0, -1)` —
again with the widths written literally. -/
def overlapYIdx (pixels sy : ℕ) : List ℤ :=
  if sy ≠ 0 then pySliceRev pixels ((sy : ℤ) + 127) ((sy : ℤ) - 1)
  else pySliceRev pixels 128 0

/-- C3: evaluation of the overlap strategy on a 260×260 raster with
tile size 128.  The grid is `ceil(260/128) = 3` by 3 with tile starts
`[0, 66, 132]`, and the x-axis is fully covered; but on the y-axis the
fixed fallback slice `slice(128, 0, -1)` of the first vertical tile
selects rows `128, …, 1` and no tile ever selects row `0`, while every
other row is covered.  This contradicts the claimed gap-free coverage of
all 260×260 pixels (and the code comment "we want to cover the whole
map"), so the union misses exactly the pixel row at coordinate 0. -/
theorem overlap_260_128_covers_except_row_zero :
    overlapN 260 128 = 3 ∧
    overlapStarts 260 128 = [0, 66, 132] ∧
    (∀ p : ℤ, 0 ≤ p → p < 260 →
      ∃ sx ∈ overlapStarts 260 128, p ∈ overlapXIdx 260 sx) ∧
    (∀ sy ∈ overlapStarts 260 128, (0 : ℤ) ∉ overlapYIdx 260 sy) ∧
    (∀ p : ℤ, 1 ≤ p → p < 260 →
      ∃ sy ∈ overlapStarts 260 128, p ∈ overlapYIdx 260 sy) := by
  have hs : overlapStarts 260 128 = [0, 66, 132] := by decide
  refine ⟨by decide, hs, ?_, ?_, ?_⟩
  · intro p h0 h1
    rw [hs]
    by_cases hp : p < 128
    · refine ⟨0, by simp, ?_⟩
      rw [overlapXIdx, mem_pySliceFwd]
      constructor <;> simp [pyNormFwd] <;> omega
    · by_cases hq : p < 194
      · refine ⟨66, by simp, ?_⟩
        rw [overlapXIdx, mem_pySliceFwd]
        constructor <;> simp [pyNormFwd] <;> omega
      · refine ⟨132, by simp, ?_⟩
        rw [overlapXIdx, mem_pySliceFwd]
        constructor <;> simp [pyNormFwd] <;> omega
  · intro sy hsy
    rw [hs] at hsy
    simp only [List.mem_cons, List.not_mem_nil, or_false] at hsy
    rcases hsy with rfl | rfl | rfl <;>
      · rw [overlapYIdx]
        norm_num [mem_pySliceRev, pyNormRev]
  · intro p h0 h1
    rw [hs]
    by_cases hp : p ≤ 128
    · refine ⟨0, by simp, ?_⟩
      rw [overlapYIdx]
      norm_num [mem_pySliceRev, pyNormRev]
      omega
    · by_cases hq : p ≤ 193
      · refine ⟨66, by simp, ?_⟩
        rw [overlapYIdx]
        norm_num [mem_pySliceRev, pyNormRev]
        omega
      · refine ⟨132, by simp, ?_⟩
        rw [overlapYIdx]
        norm_num [mem_pySliceRev, pyNormRev]
        omega

/-- C3 witness: the coverage statements of
`overlap_260_128_covers_except_row_zero` instantiated at the concrete
pixels `5` (x-axis) and `5` (y-axis). -/
theorem overlap_260_128_covers_witness :
    ((0 : ℤ) ≤ 5 ∧ (5 : ℤ) < 260 ∧
      ∃ sx ∈ overlapStarts 260 128, (5 : ℤ) ∈ overlapXIdx 260 sx) ∧
    ((1 : ℤ) ≤ 5 ∧ (5 : ℤ) < 260 ∧
      ∃ sy ∈ overlapStarts 260 128, (5 : ℤ) ∈ overlapYIdx 260 sy) :=
  ⟨⟨by norm_num, by norm_num,
      overlap_260_128_covers_except_row_zero.2.2.1 5 (by norm_num) (by norm_num)⟩,
    ⟨by norm_num, by norm_num,
      overlap_260_128_covers_except_row_zero.2.2.2.2 5 (by norm_num) (by norm_num)⟩⟩

/-- C4: evaluation of the crop strategy on a 260×260 raster with tile
size 128.  The grid has `floor(260/128) = 2` rows and 2 columns (4 spatial
tiles per time block) and both column slices and the first row slice span
128 pixels, but the last row `i = 1` is the slice
`slice(0, -128, -1)`, which normalizes to an empty selection: that tile
spans 0 pixels instead of the stated 128×128. -/
theorem crop_260_128_last_row_empty :
    cropNrows 260 128 = 2 ∧
    cropNcols 260 128 = 2 ∧
    cropNrows 260 128 * cropNcols 260 128 = 4 ∧
    (cropXIdx 260 128 0).length = 128 ∧
    (cropXIdx 260 128 1).length = 128 ∧
    (cropYIdx 260 128 2 0).length = 128 ∧
    cropYIdx 260 128 2 1 = [] := by
  refine ⟨by decide, by decide, by decide, by decide, by decide, by decide, by decide⟩

/-! ### C10: the overlap slices have the pixel width 128 written literally -/

lemma zero_mem_overlapStarts (pixels img_size : ℕ)
    (h : 0 < overlapN pixels img_size) : 0 ∈ overlapStarts pixels img_size := by
  obtain ⟨m, hm⟩ : ∃ m, overlapN pixels img_size = m + 1 :=
    ⟨overlapN pixels img_size - 1, by omega⟩
  rw [overlapStarts, hm, List.range_succ_eq_map, leftoverVec]
  simp [cumsumAux]

/-- C10 counterexample: with `img_size = 64` on a 260-pixel axis the claim
"every tile has spatial extent exactly 128" fails: the tile starting at
`sx = 196` is clipped at the raster edge to 64 pixels. -/
theorem overlap_64_clipped_tile :
    overlapStarts 260 64 = [0, 49, 98, 147, 196] ∧
    196 ∈ overlapStarts 260 64 ∧
    (overlapXIdx 260 196).length = 64 ∧
    (overlapXIdx 260 196).length ≠ 128 := by
  refine ⟨by decide, by decide, by decide, by decide⟩

/-- C10 (amended): the overlap slice endpoints are hardcoded to a width of
128 pixels — `overlapXIdx` does not even take `img_size` as an argument,
mirroring `x_1=slice(sx, sx + 128)` — and a tile overrunning the raster
edge is clipped.  Consequently, on a 260-pixel axis every overlap tile has
extent equal to the configured `img_size` exactly when `img_size = 128`. -/
theorem overlap_tiles_match_img_size_iff_128 :
    ∀ img_size : ℕ, 0 < img_size → img_size < 260 →
      ((∀ sx ∈ overlapStarts 260 img_size, (overlapXIdx 260 sx).length = img_size) ↔
        img_size = 128) := by
  intro img_size h1 h2
  constructor
  · intro hall
    have hn : 0 < overlapN 260 img_size := Nat.div_pos (by omega) h1
    have h0 : 0 ∈ overlapStarts 260 img_size := zero_mem_overlapStarts 260 img_size hn
    have h128 : (overlapXIdx 260 0).length = 128 := by decide
    have := hall 0 h0
    omega
  · rintro rfl
    decide

/-- C10 witness: the amended statement instantiated at `img_size = 128`. -/
theorem overlap_tiles_match_img_size_iff_128_witness :
    0 < 128 ∧ 128 < 260 ∧
      ((∀ sx ∈ overlapStarts 260 128, (overlapXIdx 260 sx).length = 128) ↔
        128 = 128) :=
  ⟨by decide, by decide, overlap_tiles_match_img_size_iff_128 128 (by decide) (by decide)⟩

/-! ### C9: border-strategy dispatch of `get_predicted_map_Switzerland`

The full Python function also normalizes and runs the generator; the
dispatch embedded here returns, per spatial tile, the pair of x-axis and
y-axis pixel positions that the matching branch would slice, or the
`ValueError` message of the final `else` branch.  The message string is
the literal from the source (including its typo), and it is produced
before any tiling data is built. -/

/-- The `ValueError` message raised for an unknown `handle_borders` value. -/
def borderStrategyMessage : String :=
  "Please chose one of \"crop\" or \"overlap\" for handling of image borders"

/-- Border-strategy dispatch: the spatial tiles of `get_predicted_map_Switzerland`
(`x_1` positions and `y_1` positions per tile), or the configuration error. -/
def getPredictedMapSquares (handle_borders : String)
    (pixels_lat pixels_lon img_size : ℕ) : Except String (List (List ℤ × List ℤ)) :=
  if handle_borders = "crop" then
    Except.ok ((List.range (cropNrows pixels_lon img_size)).flatMap fun i =>
      (List.range (cropNcols pixels_lat img_size)).map fun j =>
        (cropXIdx pixels_lat img_size j,
          cropYIdx pixels_lon img_size (cropNcols pixels_lat img_size) i))
  else if handle_borders = "overlap" then
    Except.ok ((overlapStarts pixels_lat img_size).flatMap fun sx =>
      (overlapStarts pixels_lon img_size).map fun sy =>
        (overlapXIdx pixels_lat sx, overlapYIdx pixels_lon sy))
  else Except.error borderStrategyMessage

/-- C9 counterexample: for the invalid strategy `"zzz"` the raised message
is the fixed string above, and that string does not contain `"zzz"` — the
error does not name the invalid value (its message contains no letter
`z` at all). -/
theorem borderStrategy_error_not_naming_value :
    getPredictedMapSquares "zzz" 260 260 128 = Except.error borderStrategyMessage ∧
    ¬ ∃ pre post : String, borderStrategyMessage = pre ++ "zzz" ++ post := by
  refine ⟨rfl, ?_⟩
  rintro ⟨pre, post, h⟩
  have hz : 'z' ∈ borderStrategyMessage.data := by
    rw [h]
    simp only [String.data_append, List.mem_append]
    exact Or.inl (Or.inr (by decide))
  exact absurd hz (by decide)

/-- C9 (amended): every `handle_borders` value outside `{"crop", "overlap"}`
makes the dispatch fail with the fixed `ValueError` message — before any
tiling (the result carries no tile data) — and that message names both
valid options, though not the invalid value itself. -/
theorem borderStrategy_invalid_error :
    ∀ handle_borders : String, handle_borders ≠ "crop" → handle_borders ≠ "overlap" →
      ∀ pixels_lat pixels_lon img_size : ℕ,
        getPredictedMapSquares handle_borders pixels_lat pixels_lon img_size =
          Except.error borderStrategyMessage ∧
        (∃ pre post : String, borderStrategyMessage = pre ++ "crop" ++ post) ∧
        (∃ pre post : String, borderStrategyMessage = pre ++ "overlap" ++ post) := by
  intro hb h1 h2 pixels_lat pixels_lon img_size
  refine ⟨?_, ⟨"Please chose one of \"",
      "\" or \"overlap\" for handling of image borders", by decide⟩,
    ⟨"Please chose one of \"crop\" or \"",
      "\" for handling of image borders", by decide⟩⟩
  rw [getPredictedMapSquares, if_neg h1, if_neg h2]

/-- C9 witness: the amended statement instantiated at the invalid value
`"zzz"` and a 260×260 raster with tile size 128. -/
theorem borderStrategy_invalid_error_witness :
    getPredictedMapSquares "zzz" 260 260 128 = Except.error borderStrategyMessage ∧
    (∃ pre post : String, borderStrategyMessage = pre ++ "crop" ++ post) ∧
    (∃ pre post : String, borderStrategyMessage = pre ++ "overlap" ++ post) :=
  borderStrategy_invalid_error "zzz" (by decide) (by decide) 260 260 128

/-! ### C7: checkpoint enumeration of `compute_metrics_val_set`

`for epoch in np.arange(saving_frequency, nb_epochs, saving_frequency): …
metrics_data.append(pd.DataFrame([…], columns=[epoch]).T)` followed by
`pd.concat`: one row per enumerated epoch, keyed by the epoch, in loop
order.  The per-epoch work (weight loading, inference, the six metric
values) is abstracted as `evalEpoch`. -/

/-- `np.arange(start, stop, step)` on non-negative integers:
`start, start + step, …`, strictly below `stop`. -/
def npArange (start stop step : ℕ) : List ℕ :=
  (List.range ((stop - start + step - 1) / step)).map (fun i => start + step * i)

/-- The rows of the Metric Record built by `compute_metrics_val_set`:
one `(epoch, row)` pair per enumerated checkpoint epoch. -/
def computeMetricsValSetRows {MRow : Type} (evalEpoch : ℕ → MRow)
    (saving_frequency nb_epochs : ℕ) : List (ℕ × MRow) :=
  (npArange saving_frequency nb_epochs saving_frequency).map
    (fun e => (e, evalEpoch e))

lemma computeMetricsValSetRows_keys {MRow : Type} (evalEpoch : ℕ → MRow)
    (sf nb : ℕ) :
    (computeMetricsValSetRows evalEpoch sf nb).map Prod.fst = npArange sf nb sf := by
  rw [computeMetricsValSetRows, List.map_map]
  exact List.map_id _

lemma mem_npArange_self {sf nb e : ℕ} (hsf : 0 < sf) :
    e ∈ npArange sf nb sf ↔ ∃ k : ℕ, 1 ≤ k ∧ e = k * sf ∧ e < nb := by
  simp only [npArange, List.mem_map, List.mem_range]
  constructor
  · rintro ⟨i, hi, rfl⟩
    have h2 : (i + 1) * sf ≤ nb - sf + sf - 1 :=
      (Nat.le_div_iff_mul_le hsf).mp (Nat.succ_le_of_lt hi)
    have h3 : (i + 1) * sf = sf * i + sf := by ring
    exact ⟨i + 1, by omega, by ring, by omega⟩
  · rintro ⟨k, hk1, rfl, hklt⟩
    obtain ⟨j, rfl⟩ : ∃ j, k = j + 1 := ⟨k - 1, by omega⟩
    have h3 : (j + 1) * sf = sf * j + sf := by ring
    have hdiv : j + 1 ≤ (nb - sf + sf - 1) / sf :=
      (Nat.le_div_iff_mul_le hsf).mpr (by omega)
    exact ⟨j, by omega, by ring⟩

/-- C7: the checkpoint-evaluation driver enumerates exactly the positive
multiples of `saving_frequency` strictly below `nb_epochs`, in increasing
order, and appends one row keyed by each enumerated epoch; for
`saving_frequency = 10` and `nb_epochs = 31` the Metric Record has exactly
the 3 rows keyed `10, 20, 30` in that order. -/
theorem computeMetrics_checkpoint_rows :
    ∀ (MRow : Type) (evalEpoch : ℕ → MRow) (sf nb : ℕ), 0 < sf →
      ((computeMetricsValSetRows evalEpoch sf nb).map Prod.fst = npArange sf nb sf) ∧
      List.Sorted (· < ·) ((computeMetricsValSetRows evalEpoch sf nb).map Prod.fst) ∧
      (∀ e : ℕ, e ∈ (computeMetricsValSetRows evalEpoch sf nb).map Prod.fst ↔
        ∃ k : ℕ, 1 ≤ k ∧ e = k * sf ∧ e < nb) ∧
      ((computeMetricsValSetRows evalEpoch 10 31).map Prod.fst = [10, 20, 30] ∧
        (computeMetricsValSetRows evalEpoch 10 31).length = 3) := by
  intro MRow evalEpoch sf nb hsf
  have hkeys := computeMetricsValSetRows_keys evalEpoch sf nb
  refine ⟨hkeys, ?_, ?_, ?_, ?_⟩
  · rw [hkeys, npArange]
    exact (List.pairwise_lt_range _).map _
      (fun a b h => Nat.add_lt_add_left ((Nat.mul_lt_mul_left hsf).mpr h) sf)
  · intro e
    rw [hkeys]
    exact mem_npArange_self hsf
  · rw [computeMetricsValSetRows_keys evalEpoch 10 31]
    decide
  · rw [computeMetricsValSetRows, List.length_map]
    decide

/-- C7 witness: the theorem instantiated at `MRow = ℕ`, the identity row
evaluator, `saving_frequency = 10` and `nb_epochs = 31`. -/
theorem computeMetrics_checkpoint_rows_witness :
    ((computeMetricsValSetRows (fun e => e) 10 31).map Prod.fst =
        npArange 10 31 10) ∧
      List.Sorted (· < ·) ((computeMetricsValSetRows (fun e => e) 10 31).map Prod.fst) ∧
      (∀ e : ℕ, e ∈ (computeMetricsValSetRows (fun e => e) 10 31).map Prod.fst ↔
        ∃ k : ℕ, 1 ≤ k ∧ e = k * 10 ∧ e < 31) ∧
      ((computeMetricsValSetRows (fun e => e) 10 31).map Prod.fst = [10, 20, 30] ∧
        (computeMetricsValSetRows (fun e => e) 10 31).length = 3) :=
  computeMetrics_checkpoint_rows ℕ (fun e => e) 10 31 (by decide)

/-! ### GAN trainer state and traces (`ganbase.py`)

`GAN.train_step` and `GAN.test_step` are embedded as explicit state
passing over the mutable state they touch: the discriminator trainable
weights, the generator trainable weights, and the two compiled-metric
accumulators.  In Keras, trainable weights change only through
`optimizer.apply_gradients`; forward passes (`generator(…)`,
`discriminator(…)`), `compiled_loss` and `metric.result()` read state
without writing it, and `compiled_metrics.update_state` writes only the
metric accumulators.  Each such effectful call is logged as a
`GanEvent`, in program order. -/

/-- Observable effects of one trainer step, in program order. -/
inductive GanEvent where
  | discOptApply
  | genOptApply
  | metricUpdate
deriving DecidableEq

/-- The mutable state read and written by the trainer:
discriminator weights, generator weights, and the metric accumulators of
`self.generator.compiled_metrics` and `self.compiled_metrics`. -/
structure GanState (DW GW MG MD : Type) where
  discW : DW
  genW : GW
  genMetrics : MG
  ganMetrics : MD

/-- The critic sub-loop `for t in range(self._n_critic)` of `train_step`:
each iteration ends in
`self.discriminator.optimizer.apply_gradients(…)`, updating the
discriminator weights from their current value (noise drawing, the
interpolate `combined_high_res`, the gradient penalty and the losses are
per-iteration pure computations folded into `discUpd`). -/
def criticLoop {DW : Type} (discUpd : DW → DW) : ℕ → DW → DW × List GanEvent
  | 0, dw => (dw, [])
  | n + 1, dw =>
    let rest := criticLoop discUpd n (discUpd dw)
    (rest.1, GanEvent.discOptApply :: rest.2)

/-- `GAN.train_step`: the critic sub-loop, then one
`self.generator.optimizer.apply_gradients(…)` (computed against the
now-updated discriminator), then the metric recomputation and the two
`compiled_metrics.update_state` calls.  Returns the new state and the
event trace in program order. -/
def trainStep {DW GW MG MD : Type} (discUpd : DW → DW) (genUpd : DW → GW → GW)
    (updMG : MG → MG) (updMD : MD → MD) (n_critic : ℕ)
    (s : GanState DW GW MG MD) : GanState DW GW MG MD × List GanEvent :=
  let critic := criticLoop discUpd n_critic s.discW
  let dw := critic.1
  let gw := genUpd dw s.genW
  (⟨dw, gw, updMG s.genMetrics, updMD s.ganMetrics⟩,
    critic.2 ++ GanEvent.genOptApply ::
      [GanEvent.metricUpdate, GanEvent.metricUpdate])

lemma criticLoop_eq {DW : Type} (discUpd : DW → DW) :
    ∀ (n : ℕ) (dw : DW),
      criticLoop discUpd n dw =
        (discUpd^[n] dw, List.replicate n GanEvent.discOptApply) := by
  intro n
  induction n with
  | zero => intro dw; rfl
  | succ m ih =>
    intro dw
    rw [criticLoop, ih (discUpd dw), Function.iterate_succ_apply,
      List.replicate_succ]

/-- C2: one `train_step` call applies the discriminator optimizer exactly
`n_critic` times and the generator optimizer exactly once, every critic
update strictly before the generator update (the full trace is `n_critic`
discriminator updates, then the generator update, then the two metric
updates); the discriminator weights end as the `n_critic`-fold update of
their initial value and the generator update sees those final
discriminator weights. -/
theorem trainStep_critic_then_generator :
    ∀ (DW GW MG MD : Type) (discUpd : DW → DW) (genUpd : DW → GW → GW)
      (updMG : MG → MG) (updMD : MD → MD) (n_critic : ℕ)
      (s : GanState DW GW MG MD),
      ((trainStep discUpd genUpd updMG updMD n_critic s).2.count
          GanEvent.discOptApply = n_critic) ∧
      ((trainStep discUpd genUpd updMG updMD n_critic s).2.count
          GanEvent.genOptApply = 1) ∧
      ((trainStep discUpd genUpd updMG updMD n_critic s).2 =
        List.replicate n_critic GanEvent.discOptApply ++
          GanEvent.genOptApply :: [GanEvent.metricUpdate, GanEvent.metricUpdate]) ∧
      ((trainStep discUpd genUpd updMG updMD n_critic s).1.discW =
        discUpd^[n_critic] s.discW) ∧
      ((trainStep discUpd genUpd updMG updMD n_critic s).1.genW =
        genUpd (discUpd^[n_critic] s.discW) s.genW) := by
  intro DW GW MG MD discUpd genUpd updMG updMD n_critic s
  have h := criticLoop_eq discUpd n_critic s.discW
  refine ⟨?_, ?_, ?_, ?_, ?_⟩ <;>
    simp [trainStep, h, List.count_append, List.count_replicate, List.count_cons]

/-- `GAN.test_step`: a single forward pass — discriminator score of the
real pair, a generated sample, discriminator score of the fake pair, and
the compiled loss of the two scores — with no optimizer application and
no state write; it returns the loss alongside the untouched state. -/
def testStep {DW GW MG MD Data Score Loss : Type}
    (discForward : DW → Data → Data → Score)
    (genForward : GW → Data → Data → Data)
    (compiledLoss : Score → Score → Loss)
    (noise x y : Data)
    (s : GanState DW GW MG MD) : GanState DW GW MG MD × Loss :=
  let truePredictions := discForward s.discW x y
  let generated := genForward s.genW x noise
  let fakePredictions := discForward s.discW x generated
  (s, compiledLoss truePredictions fakePredictions)

/-- C6: `test_step` leaves every trainable parameter of the generator and
of the discriminator unchanged — the weight components of the state after
the call equal those before the call (for any forward/loss functions and
any input batch). -/
theorem testStep_preserves_trainable_weights :
    ∀ (DW GW MG MD Data Score Loss : Type)
      (discForward : DW → Data → Data → Score)
      (genForward : GW → Data → Data → Data)
      (compiledLoss : Score → Score → Loss)
      (noise x y : Data) (s : GanState DW GW MG MD),
      ((testStep discForward genForward compiledLoss noise x y s).1.discW =
        s.discW) ∧
      ((testStep discForward genForward compiledLoss noise x y s).1.genW =
        s.genW) :=
  fun _ _ _ _ _ _ _ _ _ _ _ _ _ _ => ⟨rfl, rfl⟩

/-! ### Gradient penalty of `GAN.train_step`

`gradients_image = reg_tape.gradient(out, combined_high_res)` has the
shape of `combined_high_res`: `(batch, time, height, width, channels)`.
The code then computes
`gradients_image = tf.sqrt(tf.reduce_sum(gradients_image ** 2, axis=[1, 2, 3]))`,
a tensor of shape `(batch, channels)` — the channel axis `4` is *not*
summed — and
`gradient_reg = gamma * tf.reduce_mean((gradients_image - 1) ** 2)` with
`gamma = 100`, the mean running over all `(batch, channel)` entries.
The gradient tensor itself (backpropagation through the opaque
discriminator) is the parameter `g` below. -/

/-- `gamma = 100` from the first line of `train_step`. -/
noncomputable def gamma : ℝ := 100

/-- `tf.sqrt(tf.reduce_sum(gradients_image ** 2, axis=[1, 2, 3]))`:
entry `(b, c)` of the resulting norm tensor of shape `(batch, channels)`. -/
noncomputable def gradientsImageNorm {B T H W C : ℕ}
    (g : Fin B → Fin T → Fin H → Fin W → Fin C → ℝ) (b : Fin B) (c : Fin C) : ℝ :=
  Real.sqrt (∑ t, ∑ i, ∑ j, g b t i j c ^ 2)

/-- `gradient_reg = gamma * tf.reduce_mean((gradients_image - 1) ** 2)`:
the mean flattens the `(batch, channels)` norm tensor. -/
noncomputable def gradientReg {B T H W C : ℕ}
    (g : Fin B → Fin T → Fin H → Fin W → Fin C → ℝ) : ℝ :=
  gamma * ((∑ b, ∑ c, (gradientsImageNorm g b c - 1) ^ 2) / ((B : ℝ) * (C : ℝ)))

/-- Modelled from the claim wording of C1 (not from the source): the
penalty as `gamma` times the mean over the batch of `(‖grad‖ - 1)²`,
where `‖grad‖` is one L2 norm per sample taken over all non-batch axes
(spatial and channel). -/
noncomputable def gradientRegClaim {B T H W C : ℕ}
    (g : Fin B → Fin T → Fin H → Fin W → Fin C → ℝ) : ℝ :=
  gamma * ((∑ b, (Real.sqrt (∑ t, ∑ i, ∑ j, ∑ c, g b t i j c ^ 2) - 1) ^ 2) / (B : ℝ))

/-- A concrete gradient tensor with batch 1, one time step, one spatial
pixel and two channels, holding the values `3` and `4`. -/
noncomputable def grad345 : Fin 1 → Fin 1 → Fin 1 → Fin 1 → Fin 2 → ℝ :=
  fun _ _ _ _ c => 3 + (c.val : ℝ)

/-- C1 counterexample: on `grad345` the code computes per-channel norms
`3` and `4` (axis 4 is excluded from the `reduce_sum`), giving
`100 · ((3-1)² + (4-1)²) / 2 = 650`, whereas the claimed per-sample norm
over spatial *and channel* axes is `√(3² + 4²) = 5`, giving
`100 · (5-1)² = 1600`.  The two disagree, so the penalty is not the
claimed function of a channel-inclusive norm. -/
theorem gradientReg_ne_claim_at_grad345 :
    gradientReg grad345 = 650 ∧
    gradientRegClaim grad345 = 1600 ∧
    gradientReg grad345 ≠ gradientRegClaim grad345 := by
  have s9 : Real.sqrt ((9 : ℝ)) = 3 := by
    rw [show (9 : ℝ) = 3 ^ 2 by norm_num]
    exact Real.sqrt_sq (by norm_num)
  have s16 : Real.sqrt ((16 : ℝ)) = 4 := by
    rw [show (16 : ℝ) = 4 ^ 2 by norm_num]
    exact Real.sqrt_sq (by norm_num)
  have s25 : Real.sqrt ((25 : ℝ)) = 5 := by
    rw [show (25 : ℝ) = 5 ^ 2 by norm_num]
    exact Real.sqrt_sq (by norm_num)
  have hA : gradientReg grad345 = 650 := by
    simp only [gradientReg, gradientsImageNorm, gamma, grad345,
      Fin.sum_univ_one, Fin.sum_univ_two, Fin.val_zero, Fin.val_one]
    norm_num [s9, s16]
  have hB : gradientRegClaim grad345 = 1600 := by
    simp only [gradientRegClaim, gamma, grad345,
      Fin.sum_univ_one, Fin.sum_univ_two, Fin.val_zero, Fin.val_one]
    norm_num [s25]
  exact ⟨hA, hB, by rw [hA, hB]; norm_num⟩

/-- C1 (amended): in every critic iteration the gradient penalty equals
`gamma = 100` times the mean over batch *and channel* of `(g - 1)²`,
where `g` is the per-sample, per-channel L2 norm of the discriminator
gradient taken over the time and spatial axes only (the channel axis is
excluded from the norm). -/
theorem gradientReg_is_batch_channel_mean :
    ∀ (B T H W C : ℕ) (g : Fin B → Fin T → Fin H → Fin W → Fin C → ℝ),
      gamma = 100 ∧
      gradientReg g =
        100 * ((∑ b, ∑ c,
          (Real.sqrt (∑ t, ∑ i, ∑ j, g b t i j c ^ 2) - 1) ^ 2) /
            ((B : ℝ) * (C : ℝ))) :=
  fun _ _ _ _ _ _ => ⟨rfl, rfl⟩

/-- C8: the gradient-penalty term is always non-negative, and it equals
`0` exactly when every entry of the per-sample (per-channel) gradient-norm
tensor equals `1` — the penalty, as a function of those norms, is
minimized with value `0` precisely at norm ≡ 1. -/
theorem gradientReg_nonneg_and_zero_iff :
    ∀ (B T H W C : ℕ) (g : Fin B → Fin T → Fin H → Fin W → Fin C → ℝ),
      0 ≤ gradientReg g ∧
      (gradientReg g = 0 ↔
        ∀ (b : Fin B) (c : Fin C), gradientsImageNorm g b c = 1) := by
  intro B T H W C g
  constructor
  · unfold gradientReg gamma
    positivity
  · constructor
    · intro h0 b c
      have hD : (0 : ℝ) < (B : ℝ) * (C : ℝ) := by
        have hB : 0 < B := b.pos
        have hC : 0 < C := c.pos
        positivity
      unfold gradientReg gamma at h0
      have hS0 : ∑ b, ∑ c, (gradientsImageNorm g b c - 1) ^ 2 = 0 := by
        rcases mul_eq_zero.mp h0 with h | h
        · norm_num at h
        · rcases div_eq_zero_iff.mp h with h | h
          · exact h
          · exact absurd h (ne_of_gt hD)
      have hrow := (Finset.sum_eq_zero_iff_of_nonneg
        (fun b _ => Finset.sum_nonneg fun c _ => sq_nonneg _)).mp hS0 b
        (Finset.mem_univ b)
      have hterm := (Finset.sum_eq_zero_iff_of_nonneg
        (fun c _ => sq_nonneg _)).mp hrow c (Finset.mem_univ c)
      have hzero := (pow_eq_zero_iff (by norm_num : (2 : ℕ) ≠ 0)).mp hterm
      exact sub_eq_zero.mp hzero
    · intro hall
      unfold gradientReg
      have hS0 : ∑ b, ∑ c, (gradientsImageNorm g b c - 1) ^ 2 = 0 :=
        Finset.sum_eq_zero fun b _ => Finset.sum_eq_zero fun c _ => by
          rw [hall b c]; ring
      rw [hS0]
      simp

/-! ### Per-call tile normalization of `get_predicted_map_Switzerland`

After stacking and transposing, `tensors` has shape
`(tile, time, row, col, channel)`, and the code normalizes with
`(tensors - np.nanmean(tensors, axis=(0, 1, 2), keepdims=True)) /
np.nanstd(tensors, axis=(0, 1, 2), keepdims=True)`: the statistics reduce
the tile, time and *row* axes only, leaving one statistic per
`(col, channel)` pair, broadcast back over the reduced axes.  On NaN-free
input `nanmean`/`nanstd` are the arithmetic mean and the population
standard deviation (the square root of `nanvar012` below, so two
positions share a standard deviation exactly when they share the
variance). -/

/-- `np.nanmean(tensors, axis=(0, 1, 2), keepdims=True)` on NaN-free
input: one mean per `(col, channel)`. -/
def nanmean012 {N T H W C : ℕ}
    (x : Fin N → Fin T → Fin H → Fin W → Fin C → ℚ) (w : Fin W) (c : Fin C) : ℚ :=
  (∑ n, ∑ t, ∑ i, x n t i w c) / ((N : ℚ) * (T : ℚ) * (H : ℚ))

/-- `np.nanstd(tensors, axis=(0, 1, 2), keepdims=True) ** 2` on NaN-free
input: one population variance per `(col, channel)`. -/
def nanvar012 {N T H W C : ℕ}
    (x : Fin N → Fin T → Fin H → Fin W → Fin C → ℚ) (w : Fin W) (c : Fin C) : ℚ :=
  (∑ n, ∑ t, ∑ i, (x n t i w c - nanmean012 x w c) ^ 2) /
    ((N : ℚ) * (T : ℚ) * (H : ℚ))

/-- The mean subtracted at position `(n, t, i, w, c)` of the stacked tile
tensor: the `keepdims` statistic broadcast over the reduced axes. -/
def meanUsedAt {N T H W C : ℕ}
    (x : Fin N → Fin T → Fin H → Fin W → Fin C → ℚ)
    (_ : Fin N) (_ : Fin T) (_ : Fin H) (w : Fin W) (c : Fin C) : ℚ :=
  nanmean012 x w c

/-- The variance (squared divisor) used at position `(n, t, i, w, c)`. -/
def varUsedAt {N T H W C : ℕ}
    (x : Fin N → Fin T → Fin H → Fin W → Fin C → ℚ)
    (_ : Fin N) (_ : Fin T) (_ : Fin H) (w : Fin W) (c : Fin C) : ℚ :=
  nanvar012 x w c

/-- A stack of two single-channel 1×2 tiles (one time step):
tile 0 holds `[0, 10]`, tile 1 holds `[2, 30]`. -/
def tiles4 : Fin 2 → Fin 1 → Fin 1 → Fin 2 → Fin 1 → ℚ :=
  fun n _ _ w _ =>
    2 * (n.val : ℚ) + 10 * (w.val : ℚ) + 18 * (n.val : ℚ) * (w.val : ℚ)

/-- C5 counterexample: on `tiles4` the normalization statistic used for
the single channel is *not* shared by all pixel positions: column 0 is
normalized with mean `1` and column 1 with mean `20`, because the second
within-tile spatial axis (axis 3) is not part of the `nanmean`/`nanstd`
reduction `axis=(0, 1, 2)`. -/
theorem tileNormalization_stats_not_shared :
    meanUsedAt tiles4 0 0 0 0 0 = 1 ∧
    meanUsedAt tiles4 0 0 0 1 0 = 20 ∧
    meanUsedAt tiles4 0 0 0 0 0 ≠ meanUsedAt tiles4 0 0 0 1 0 := by
  have h1 : meanUsedAt tiles4 0 0 0 0 0 = 1 := by
    simp only [meanUsedAt, nanmean012, tiles4,
      Fin.sum_univ_one, Fin.sum_univ_two, Fin.val_zero, Fin.val_one]
    norm_num
  have h2 : meanUsedAt tiles4 0 0 0 1 0 = 20 := by
    simp only [meanUsedAt, nanmean012, tiles4,
      Fin.sum_univ_one, Fin.sum_univ_two, Fin.val_zero, Fin.val_one]
    norm_num
  exact ⟨h1, h2, by rw [h1, h2]; norm_num⟩

/-- C5 (amended): the z-score statistics of the tile normalization are
computed across the tile, time and first within-tile spatial axis only,
giving one mean and one variance (hence one standard deviation) per
`(column, channel)` pair: any two positions sharing the column and the
channel share the statistics, and the statistics are the arithmetic mean
and population variance over those three axes. -/
theorem tileNormalization_stats_per_col_channel :
    ∀ (N T H W C : ℕ) (x : Fin N → Fin T → Fin H → Fin W → Fin C → ℚ)
      (n n' : Fin N) (t t' : Fin T) (i i' : Fin H) (w : Fin W) (c : Fin C),
      meanUsedAt x n t i w c = meanUsedAt x n' t' i' w c ∧
      varUsedAt x n t i w c = varUsedAt x n' t' i' w c ∧
      meanUsedAt x n t i w c =
        (∑ m, ∑ s, ∑ r, x m s r w c) / ((N : ℚ) * (T : ℚ) * (H : ℚ)) ∧
      varUsedAt x n t i w c =
        (∑ m, ∑ s, ∑ r, (x m s r w c - nanmean012 x w c) ^ 2) /
          ((N : ℚ) * (T : ℚ) * (H : ℚ)) :=
  fun _ _ _ _ _ _ _ _ _ _ _ _ _ _ => ⟨rfl, rfl, rfl, rfl⟩

end WindDownscaling
